import Mathlib

/-!
Shallow embedding of `nodes.py` (ComfyUI "Load Lora Model Only from URL" node).

The Python string operations used by the source (`strip`, `startswith`,
`endswith`, `lower`, `in`, `split`, `replace`, slicing) are modelled over
`List Char`; machine-level effects (filesystem, environment, network,
`hf_hub_download`) are modelled as explicit state passed through a `World`
record.  Fallible Python code (raising `ValueError`, `IndexError`, download
failures) returns `Except PyErr`.
-/

namespace Nodes

/-- Errors the Python code can raise: `ValueError(msg)`, `IndexError` from
list indexing, and the generic download exception raised by `download_file`
on a non-200 status code. -/
inductive PyErr where
  | valueError (msg : String)
  | indexError
  | downloadError (status : Nat)
deriving DecidableEq, Repr

deriving instance DecidableEq for Except

/-! ### Python string semantics over `List Char` -/

/-- First occurrence of `sep` in `s`: returns `some (before, after)` where
`s = before ++ sep ++ after` and the occurrence is the leftmost one, or
`none` when `sep` does not occur in `s` (for nonempty `sep`). -/
def splitFirst (sep : List Char) : List Char → Option (List Char × List Char)
  | [] => none
  | c :: l =>
    if sep.isPrefixOf (c :: l) then some ([], (c :: l).drop sep.length)
    else (splitFirst sep l).map (fun pq => (c :: pq.1, pq.2))

/-- Fuelled iteration of `splitFirst`, implementing Python `str.split(sep)`
for a nonempty separator.  The fuel `s.length` always suffices because each
found occurrence strictly shrinks the remainder. -/
def pySplitAuxL (sep : List Char) : Nat → List Char → List (List Char)
  | 0, s => [s]
  | fuel + 1, s =>
    match splitFirst sep s with
    | none => [s]
    | some pq => pq.1 :: pySplitAuxL sep fuel pq.2

/-- Python `s.split(sep)` on character lists (nonempty `sep`). -/
def pySplitL (sep s : List Char) : List (List Char) :=
  pySplitAuxL sep s.length s

/-- Python `s.split(sep)`. -/
def pySplit (s sep : String) : List String :=
  (pySplitL sep.data s.data).map String.mk

/-- Python `sub in s` (substring containment). -/
def pyContains (s sub : String) : Bool :=
  sub.data.isEmpty || (splitFirst sub.data s.data).isSome

/-- Python `s.startswith(p)`. -/
def pyStartsWith (s p : String) : Bool :=
  p.data.isPrefixOf s.data

/-- Python `s.endswith(p)`. -/
def pyEndsWith (s p : String) : Bool :=
  p.data.isSuffixOf s.data

/-- Python `s.lower()` (ASCII case mapping, which covers every character the
source compares case-insensitively). -/
def pyLower (s : String) : String :=
  String.mk (s.data.map Char.toLower)

/-- Python `s.strip()` (whitespace trim at both ends). -/
def pyStrip (s : String) : String :=
  String.mk (((s.data.dropWhile Char.isWhitespace).reverse.dropWhile
    Char.isWhitespace).reverse)

/-- Python `s.replace(old, new)` for nonempty `old`: split on `old` and
rejoin with `new`. -/
def pyReplace (s old new : String) : String :=
  String.mk (List.intercalate new.data (pySplitL old.data s.data))

/-- Python `s[:-n]` for `0 < n ≤ len(s)` (drop the last `n` characters). -/
def pyDropRight (s : String) (n : Nat) : String :=
  String.mk (s.data.take (s.data.length - n))

/-- `os.path.join` for the POSIX paths the source builds. -/
def joinPath (a b : String) : String :=
  a ++ "/" ++ b

/-! ### MD5 (`hashlib.md5(url.encode()).hexdigest()`)

A direct implementation of RFC 1321 over byte lists, with 32-bit words
represented as `Nat` reduced mod `2 ^ 32`. -/

/-- Truncation to a 32-bit word. -/
def w32 (n : Nat) : Nat := n % 4294967296

/-- Truncation to a 64-bit word (for the length field of the padding). -/
def w64 (n : Nat) : Nat := n % 18446744073709551616

/-- 32-bit left rotation (`x` is assumed to be a 32-bit word). -/
def rotl32 (x s : Nat) : Nat :=
  w32 ((x <<< s) ||| (x >>> (32 - s)))

/-- UTF-8 encoding of one character (Python `str.encode()`), as bytes. -/
def utf8Bytes (c : Char) : List Nat :=
  let n := c.toNat
  if n < 128 then [n]
  else if n < 2048 then
    [192 ||| (n >>> 6), 128 ||| (n &&& 63)]
  else if n < 65536 then
    [224 ||| (n >>> 12), 128 ||| ((n >>> 6) &&& 63), 128 ||| (n &&& 63)]
  else
    [240 ||| (n >>> 18), 128 ||| ((n >>> 12) &&& 63),
     128 ||| ((n >>> 6) &&& 63), 128 ||| (n &&& 63)]

/-- UTF-8 bytes of a string. -/
def strBytes (s : String) : List Nat :=
  (s.data.map utf8Bytes).flatten

/-- The 64 per-round sine-derived constants of MD5. -/
def md5K : List Nat :=
  [0xd76aa478, 0xe8c7b756, 0x242070db, 0xc1bdceee,
   0xf57c0faf, 0x4787c62a, 0xa8304613, 0xfd469501,
   0x698098d8, 0x8b44f7af, 0xffff5bb1, 0x895cd7be,
   0x6b901122, 0xfd987193, 0xa679438e, 0x49b40821,
   0xf61e2562, 0xc040b340, 0x265e5a51, 0xe9b6c7aa,
   0xd62f105d, 0x02441453, 0xd8a1e681, 0xe7d3fbc8,
   0x21e1cde6, 0xc33707d6, 0xf4d50d87, 0x455a14ed,
   0xa9e3e905, 0xfcefa3f8, 0x676f02d9, 0x8d2a4c8a,
   0xfffa3942, 0x8771f681, 0x6d9d6122, 0xfde5380c,
   0xa4beea44, 0x4bdecfa9, 0xf6bb4b60, 0xbebfbc70,
   0x289b7ec6, 0xeaa127fa, 0xd4ef3085, 0x04881d05,
   0xd9d4d039, 0xe6db99e5, 0x1fa27cf8, 0xc4ac5665,
   0xf4292244, 0x432aff97, 0xab9423a7, 0xfc93a039,
   0x655b59c3, 0x8f0ccc92, 0xffeff47d, 0x85845dd1,
   0x6fa87e4f, 0xfe2ce6e0, 0xa3014314, 0x4e0811a1,
   0xf7537e82, 0xbd3af235, 0x2ad7d2bb, 0xeb86d391]

/-- The 64 per-round left-rotation amounts of MD5. -/
def md5S : List Nat :=
  [7, 12, 17, 22, 7, 12, 17, 22, 7, 12, 17, 22, 7, 12, 17, 22,
   5,  9, 14, 20, 5,  9, 14, 20, 5,  9, 14, 20, 5,  9, 14, 20,
   4, 11, 16, 23, 4, 11, 16, 23, 4, 11, 16, 23, 4, 11, 16, 23,
   6, 10, 15, 21, 6, 10, 15, 21, 6, 10, 15, 21, 6, 10, 15, 21]

/-- The MD5 round mixing function for round index `i`. -/
def md5F (i b c d : Nat) : Nat :=
  if i < 16 then (b &&& c) ||| ((b ^^^ 0xffffffff) &&& d)
  else if i < 32 then (d &&& b) ||| ((d ^^^ 0xffffffff) &&& c)
  else if i < 48 then b ^^^ c ^^^ d
  else c ^^^ (b ||| (d ^^^ 0xffffffff))

/-- The message-word index used in round `i`. -/
def md5G (i : Nat) : Nat :=
  if i < 16 then i
  else if i < 32 then (5 * i + 1) % 16
  else if i < 48 then (3 * i + 5) % 16
  else (7 * i) % 16

/-- One MD5 round: updates the `(A, B, C, D)` state using message words `M`. -/
def md5Round (M : List Nat) (st : Nat × Nat × Nat × Nat) (i : Nat) :
    Nat × Nat × Nat × Nat :=
  match st with
  | (a, b, c, d) =>
    let f := w32 (md5F i b c d + a + md5K.getD i 0 + M.getD (md5G i) 0)
    (d, w32 (b + rotl32 f (md5S.getD i 0)), b, c)

/-- Decode a 64-byte chunk into 16 little-endian 32-bit words. -/
def leWords : List Nat → List Nat
  | b0 :: b1 :: b2 :: b3 :: rest =>
    (b0 + 256 * b1 + 65536 * b2 + 16777216 * b3) :: leWords rest
  | _ => []

/-- Process one 64-byte chunk, updating the running MD5 state. -/
def md5Chunk (st : Nat × Nat × Nat × Nat) (chunk : List Nat) :
    Nat × Nat × Nat × Nat :=
  let M := leWords chunk
  match st, (List.range 64).foldl (md5Round M) st with
  | (a0, b0, c0, d0), (a, b, c, d) =>
    (w32 (a0 + a), w32 (b0 + b), w32 (c0 + c), w32 (d0 + d))

/-- Split a byte list into 64-byte chunks (fuelled; the fuel `l.length`
always suffices). -/
def chunks64 : Nat → List Nat → List (List Nat)
  | _, [] => []
  | 0, l => [l]
  | fuel + 1, l => l.take 64 :: chunks64 fuel (l.drop 64)

/-- A `Nat` as `n` little-endian bytes. -/
def leBytes : Nat → Nat → List Nat
  | 0, _ => []
  | k + 1, v => v % 256 :: leBytes k (v / 256)

/-- MD5 padding: append `0x80`, zero bytes up to 56 mod 64, then the
original bit length as a 64-bit little-endian quantity. -/
def md5Pad (msg : List Nat) : List Nat :=
  let ml := msg.length
  let zeros := (56 + 64 - ((ml + 1) % 64)) % 64
  msg ++ [128] ++ List.replicate zeros 0 ++ leBytes 8 (w64 (8 * ml))

/-- The 16 digest bytes of the MD5 of a byte message. -/
def md5Bytes (msg : List Nat) : List Nat :=
  let padded := md5Pad msg
  match (chunks64 padded.length padded).foldl md5Chunk
      (0x67452301, 0xefcdab89, 0x98badcfe, 0x10325476) with
  | (a, b, c, d) => leBytes 4 a ++ leBytes 4 b ++ leBytes 4 c ++ leBytes 4 d

/-- A nibble as a lowercase hex character. -/
def hexDigit (n : Nat) : Char :=
  if n < 10 then Char.ofNat (48 + n) else Char.ofNat (87 + n)

/-- A byte as two lowercase hex characters. -/
def byteHex (b : Nat) : List Char :=
  [hexDigit (b / 16), hexDigit (b % 16)]

/-- `hashlib.md5(s.encode()).hexdigest()`. -/
def md5hex (s : String) : String :=
  String.mk (((md5Bytes (strBytes s)).map byteHex).flatten)

/-! ### Effect model

The filesystem is a map from path to file contents; directory creation
(`os.makedirs`, and the directory handling inside `find_or_create_cache`)
is not observable through this map and is not modelled.  The network is a
function from URL to `(status_code, body)` — `requests.get(url,
allow_redirects=True)` with redirects already folded into the answer.  The
environment carries the one variable the source reads,
`CIVITAI_API_KEY`.  `hf_hub_download` is an external library primitive
(not code of this repository); only the arguments the source passes to it
and the path it returns are modelled, as the abstract function `hfHub`.
`find_or_create_cache` walks the working directory and returns the cache
root; it is modelled as the abstract value `cacheDir`. -/

/-- The ambient state and external collaborators of `get_lora_from_url`. -/
structure World where
  /-- Filesystem: path ↦ contents of the file, `none` when absent. -/
  files : String → Option (List Nat)
  /-- `os.environ["CIVITAI_API_KEY"]` when the variable is set. -/
  env : Option String
  /-- `requests.get`: URL ↦ (status code, response body). -/
  net : String → Nat × List Nat
  /-- The cache root returned by `find_or_create_cache()`. -/
  cacheDir : String
  /-- `hf_hub_download(repo_id, subfolder, filename, cache_dir)` ↦ path. -/
  hfHub : String → Option String → String → String → String

/-- Result of a run of `get_lora_from_url`: the returned path or raised
error, the final filesystem, and the URLs passed to `requests.get` by
`download_file` (in order). -/
structure Outcome where
  result : Except PyErr String
  files : String → Option (List Nat)
  requests : List String

/-- Result of a run of `download_file`: raised error if any, the final
filesystem, and the URLs requested. -/
structure DlResult where
  result : Except PyErr Unit
  files : String → Option (List Nat)
  requests : List String

/-- `download_file(url, filename)` (nodes.py lines 10-18): create parent
directories (not observable in the file map), GET the URL, and on a 200
status write the whole body to `filename`; otherwise raise without
touching the filesystem. -/
def download_file (net : String → Nat × List Nat)
    (files : String → Option (List Nat)) (url filename : String) : DlResult :=
  let r := net url
  if r.1 = 200 then
    ⟨.ok (), fun p => if p = filename then some r.2 else files p, [url]⟩
  else
    ⟨.error (.downloadError r.1), files, [url]⟩

/-- `get_filename_from_url(url, extension)` (nodes.py lines 21-24): md5 the
URL to get a unique filename. -/
def get_filename_from_url (url : String) (extension : String) : String :=
  md5hex url ++ "." ++ extension

/-- The Hugging Face URL normalisation and parsing steps of
`get_lora_from_url` (nodes.py lines 50-80): strip a trailing
`?download=true`, rewrite `/blob/` to `/resolve/`, require a
`safetensors` suffix, then split the scheme-less URL on `/` and read the
repo id (parts 1 and 2), filename (last part) and subfolder
(parts 5 .. -1, when nonempty).  Missing parts 1 or 2 are an
`IndexError`, exactly as Python list indexing raises. -/
def hf_parse (url : String) : Except PyErr (String × Option String × String) :=
  let url := if pyEndsWith url "?download=true" then
    pyDropRight url ("?download=true".data.length) else url
  let url := if pyContains url "/blob/" then
    pyReplace url "/blob/" "/resolve/" else url
  if pyEndsWith (pyLower url) "safetensors" then
    let parser_string := pyReplace (pyReplace url "http://" "") "https://" ""
    let parts := pySplit parser_string "/"
    match parts.get? 1, parts.get? 2 with
    | some p1, some p2 =>
      let repo_id := p1 ++ "/" ++ p2
      let filename := parts.getLastD ""
      let subfolder : Option String :=
        if (parts.length : Int) - 6 > 0 then
          some (String.intercalate "/" ((parts.drop 5).dropLast))
        else none
      .ok (repo_id, subfolder, filename)
    | _, _ => .error .indexError
  else .error (.valueError "Only safetensors files are supported.")

/-- Continuation of the Hugging Face arm on the outcome of `hf_parse`: a
raised error propagates; otherwise the cached download is delegated to
`hf_hub_download` with the stripped repo id and filename (nodes.py
lines 82-87). -/
def hf_branch_core (w : World) :
    Except PyErr (String × Option String × String) → Outcome
  | .error e => ⟨.error e, w.files, []⟩
  | .ok (repo_id, subfolder, filename) =>
    ⟨.ok (w.hfHub (pyStrip repo_id) subfolder (pyStrip filename) w.cacheDir),
     w.files, []⟩

/-- The Hugging Face arm of `get_lora_from_url` (nodes.py lines 50-87). -/
def hf_branch (w : World) (url : String) : Outcome :=
  hf_branch_core w (hf_parse url)

/-- The civitai URL fix-up of `get_lora_from_url` (nodes.py lines 92-96):
when the URL contains `modelVersionId`, take the text after the first
`modelVersionId=` up to the next `&` and rebuild the canonical download
URL; Python raises `IndexError` when `modelVersionId=` itself is absent. -/
def civitai_fix_url (url : String) : Except PyErr String :=
  if pyContains url "modelVersionId" then
    match (pySplit url "modelVersionId=").get? 1 with
    | none => .error .indexError
    | some after =>
      let model_version_id := (pySplit after "&").headD ""
      .ok ("https://civitai.com/api/download/models/" ++ model_version_id ++
        "?type=Model&format=SafeTensor")
  else .ok url

/-- The API-key injection of `get_lora_from_url` (nodes.py lines 104-108):
after the cache filename has been derived, append `&token=<key>` when the
environment variable is set and not blank. -/
def civitai_with_key (env : Option String) (url : String) : String :=
  match env with
  | none => url
  | some api_key =>
    if pyStrip api_key ≠ "" then url ++ "&token=" ++ api_key else url

/-- Completion of a cache-miss download (the call `download_file(url,
lora_path)` at nodes.py lines 115 and 126): a raised error propagates,
success returns `lora_path`. -/
def finishDownload (lora_path : String) (d : DlResult) : Outcome :=
  match d.result with
  | .ok _ => ⟨.ok lora_path, d.files, d.requests⟩
  | .error e => ⟨.error e, d.files, d.requests⟩

/-- The civitai arm after the URL fix-up (nodes.py lines 98-115): require
the `SafeTensor` marker, derive the md5 cache filename, then (after
appending any API key) download unless the cache file exists. -/
def civitai_branch_rest (w : World) (url : String) : Outcome :=
  if pyContains url "SafeTensor" then
    let save_filename := get_filename_from_url url "safetensors"
    let url := civitai_with_key w.env url
    let lora_path := joinPath (joinPath w.cacheDir "civitai") save_filename
    if (w.files lora_path).isSome then ⟨.ok lora_path, w.files, []⟩
    else finishDownload lora_path (download_file w.net w.files url lora_path)
  else
    ⟨.error (.valueError
      "Only safetensors files are supported for security reasons."),
     w.files, []⟩

/-- Continuation of the civitai arm on the outcome of the URL fix-up: a
raised `IndexError` propagates. -/
def civitai_branch_core (w : World) : Except PyErr String → Outcome
  | .error e => ⟨.error e, w.files, []⟩
  | .ok url => civitai_branch_rest w url

/-- The civitai arm of `get_lora_from_url` (nodes.py lines 88-115). -/
def civitai_branch (w : World) (url : String) : Outcome :=
  civitai_branch_core w (civitai_fix_url url)

/-- The generic arm of `get_lora_from_url` (nodes.py lines 116-126):
require the query-stripped lowercased URL to end in `safetensors`, derive
the md5 cache filename, then download unless the cache file exists. -/
def general_branch (w : World) (url : String) : Outcome :=
  if pyEndsWith (pyLower ((pySplit url "?").headD "")) "safetensors" then
    let save_filename := get_filename_from_url url "safetensors"
    let lora_path := joinPath (joinPath w.cacheDir "general") save_filename
    if (w.files lora_path).isSome then ⟨.ok lora_path, w.files, []⟩
    else finishDownload lora_path (download_file w.net w.files url lora_path)
  else
    ⟨.error (.valueError
      "Only safetensors files are supported for security reasons."),
     w.files, []⟩

/-- `get_lora_from_url(url)` (nodes.py lines 40-128): trim, validate the
`http` prefix, then dispatch on the host substring. -/
def get_lora_from_url (w : World) (url : String) : Outcome :=
  let url := pyStrip url
  if url = "" then ⟨.error (.valueError "URL is empty"), w.files, []⟩
  else if pyStartsWith url "http" then
    if pyContains url "huggingface.co" then hf_branch w url
    else if pyContains url "civitai.com" then civitai_branch w url
    else general_branch w url
  else ⟨.error (.valueError "Invalid URL"), w.files, []⟩

/-! ### The node (`LoadLoraModelOnlyWithUrl`) -/

/-- The per-node in-memory single-slot cache (`self.loaded_lora`,
`self.loaded_lora_path`). -/
structure NodeState (L : Type) where
  loaded_lora : Option L
  loaded_lora_path : Option String

/-- `load_lora_model_only_from_url` (nodes.py lines 154-188).  `M` is the
host's model type, `L` the loaded-weights type; `load_torch_file` and
`load_lora_for_models` are the external loading and patching primitives
(the latter folded to its first tuple component, the patched model).  The
blend strength, a Python float compared only against zero, is modelled as
a rational.  Returns the patched model, the updated node state, the final
filesystem and the issued requests. -/
def load_lora_model_only_from_url {M L : Type}
    (load_torch_file : String → L)
    (load_lora_for_models : M → L → Rat → M)
    (w : World) (st : NodeState L) (model : M) (url : String)
    (strength_model : Rat) :
    Except PyErr (M × NodeState L × (String → Option (List Nat)) × List String) :=
  if strength_model = 0 then .ok (model, st, w.files, [])
  else
    let o := get_lora_from_url w url
    match o.result with
    | .error e => .error e
    | .ok lora_path =>
      let cached : Option L × NodeState L :=
        match st.loaded_lora with
        | some l =>
          if st.loaded_lora_path = some lora_path then (some l, st)
          else (none, ⟨none, none⟩)
        | none => (none, st)
      match cached with
      | (some lora, st1) =>
        .ok (load_lora_for_models model lora strength_model, st1,
          o.files, o.requests)
      | (none, _) =>
        let lora := load_torch_file lora_path
        .ok (load_lora_for_models model lora strength_model,
          ⟨some lora, some lora_path⟩, o.files, o.requests)

/-! ### Spec-side vocabulary

These definitions follow the specification's words (not the source) and
are used only to state claims about query parameters, extensions and
error classes. -/

/-- The query parameters of a URL as the spec reads them: the text after
the first `?`, split on `&`. -/
def queryParamsSpec (url : String) : List String :=
  match splitFirst ['?'] url.data with
  | none => []
  | some pq => (pySplitL ['&'] pq.2).map String.mk

/-- Whether the URL carries the query parameter `name` with value
`value`, as an exact `name=value` member of the query-parameter list. -/
def hasQueryParamSpec (url name value : String) : Bool :=
  (queryParamsSpec url).contains (name ++ "=" ++ value)

/-- The names of the URL's query parameters (text before the first `=` of
each parameter). -/
def queryParamNamesSpec (url : String) : List String :=
  (queryParamsSpec url).map (fun p => (pySplit p "=").headD "")

/-- The filename extension of a URL as the spec reads it: strip the query
string, take the last `/`-segment, and return the text after its last
`.` (empty when the segment has no dot). -/
def urlExtensionSpec (url : String) : String :=
  let path := (pySplit url "?").headD ""
  let seg := (pySplit path "/").getLastD ""
  let pieces := pySplit seg "."
  if pieces.length ≥ 2 then pieces.getLastD "" else ""

/-- Whether a result is the spec's `InvalidInputError` (a Python
`ValueError` in the source). -/
def isInvalidInputError : Except PyErr String → Bool
  | .error (.valueError _) => true
  | _ => false

/-- Whether a result is one of the two errors `get_lora_from_url` raises
before any provider strategy is selected. -/
def isPreDispatchError : Except PyErr String → Bool
  | .error (.valueError m) => m == "URL is empty" || m == "Invalid URL"
  | _ => false

/-- A fixture world for concrete evaluations: every file exists, every
request answers 200 with an empty body, no API key is set. -/
def allCachedWorld : World :=
  ⟨fun _ => some [], none, fun _ => (200, []), "cache", fun _ _ _ _ => ""⟩

/-! ### Helper lemmas about the branches -/

/-- A successful `finishDownload` always returns the cache path it was
given. -/
theorem finishDownload_ok_path {lora_path : String} {d : DlResult} {p : String}
    (h : (finishDownload lora_path d).result = .ok p) : p = lora_path := by
  unfold finishDownload at h
  cases hr : d.result with
  | ok u => rw [hr] at h; exact (Except.ok.injEq _ _ |>.mp h.symm).symm ▸ rfl
  | error e => rw [hr] at h; exact absurd h (by simp)

/-- A successful run of the civitai arm returns the md5-derived cache path
of the fixed-up URL. -/
theorem civitai_ok_path {w : World} {url p : String}
    (h : (civitai_branch w url).result = .ok p) :
    ∃ u, civitai_fix_url url = .ok u ∧
      p = joinPath (joinPath w.cacheDir "civitai")
        (get_filename_from_url u "safetensors") := by
  unfold civitai_branch at h
  cases hf : civitai_fix_url url with
  | error e => rw [hf] at h; simp [civitai_branch_core] at h
  | ok u =>
    rw [hf] at h
    refine ⟨u, rfl, ?_⟩
    by_cases hst : pyContains u "SafeTensor" = true
    · simp only [civitai_branch_core, civitai_branch_rest, if_pos hst] at h
      by_cases hex : (w.files (joinPath (joinPath w.cacheDir "civitai")
          (get_filename_from_url u "safetensors"))).isSome = true
      · rw [if_pos hex] at h
        exact (Except.ok.injEq _ _ |>.mp h).symm
      · rw [if_neg hex] at h
        exact finishDownload_ok_path h
    · simp only [civitai_branch_core, civitai_branch_rest, if_neg hst] at h
      simp at h

/-- A successful run of the generic arm returns the md5-derived cache path
of the URL. -/
theorem general_ok_path {w : World} {url p : String}
    (h : (general_branch w url).result = .ok p) :
    p = joinPath (joinPath w.cacheDir "general")
      (get_filename_from_url url "safetensors") := by
  unfold general_branch at h
  by_cases hok : pyEndsWith (pyLower ((pySplit url "?").headD ""))
      "safetensors" = true
  · rw [if_pos hok] at h
    by_cases hex : (w.files (joinPath (joinPath w.cacheDir "general")
        (get_filename_from_url url "safetensors"))).isSome = true
    · rw [if_pos hex] at h
      exact (Except.ok.injEq _ _ |>.mp h).symm
    · rw [if_neg hex] at h
      exact finishDownload_ok_path h
  · rw [if_neg hok] at h; exact absurd h (by simp)

/-! ### Claim theorems -/

/-- C1: the blob-form Hugging Face URL with the `?download=true` suffix
resolves, on the named-repository-host path, to repository id
`owner/repo`, subfolder `sub` and filename `file.safetensors`; the full
resolver passes exactly these to `hf_hub_download` and performs no
filesystem change and no direct network request. -/
theorem hf_blob_example_resolution :
    hf_parse
      "https://huggingface.co/owner/repo/blob/main/sub/file.safetensors?download=true"
      = .ok ("owner/repo", some "sub", "file.safetensors") ∧
    ∀ w : World, get_lora_from_url w
      "https://huggingface.co/owner/repo/blob/main/sub/file.safetensors?download=true"
      = ⟨.ok (w.hfHub "owner/repo" (some "sub") "file.safetensors" w.cacheDir),
         w.files, []⟩ :=
  ⟨rfl, fun _ => rfl⟩

/-- C7: `download_file` writes the response body to the destination only
on a 200 status; on any other status it raises the download error for
that status and leaves the filesystem unchanged (no partial file). -/
theorem download_file_writes_only_on_200
    (net : String → Nat × List Nat) (files : String → Option (List Nat))
    (url filename : String) :
    ((net url).1 ≠ 200 →
      download_file net files url filename =
        ⟨.error (.downloadError (net url).1), files, [url]⟩) ∧
    ((net url).1 = 200 →
      download_file net files url filename =
        ⟨.ok (), fun p => if p = filename then some (net url).2 else files p,
         [url]⟩) := by
  constructor
  · intro h
    unfold download_file
    rw [if_neg h]
  · intro h
    unfold download_file
    rw [if_pos h]

/-- Witness for C7: a network answering 404 leaves the filesystem map
untouched and reports the 404 as a download error. -/
theorem download_file_writes_only_on_200_witness :
    download_file (fun _ => ((404 : Nat), ([] : List Nat))) (fun _ => none)
      "https://example.com/a.safetensors" "cache/general/a.safetensors" =
      ⟨.error (.downloadError 404), fun _ => none,
       ["https://example.com/a.safetensors"]⟩ :=
  (download_file_writes_only_on_200 (fun _ => ((404 : Nat), ([] : List Nat)))
    (fun _ => none) "https://example.com/a.safetensors"
    "cache/general/a.safetensors").1 (by decide)

/-- C9: a zero-strength blend request returns the base model unmodified
and short-circuits before any resolution or fetch: node state, filesystem
and request log are all unchanged. -/
theorem zero_strength_short_circuit {M L : Type}
    (load_torch_file : String → L) (load_lora_for_models : M → L → Rat → M)
    (w : World) (st : NodeState L) (model : M) (url : String) :
    load_lora_model_only_from_url load_torch_file load_lora_for_models
      w st model url 0 = .ok (model, st, w.files, []) :=
  rfl

/-- C10: a named-repository-host URL with the supported extension but
fewer than three `/`-separated segments after the scheme makes the
resolver raise an out-of-bounds indexing error (Python `IndexError`), not
`InvalidInputError`. -/
theorem hf_short_url_index_error :
    ∃ url : String, pyStrip url = url ∧ url ≠ "" ∧
      pyStartsWith url "https://" = true ∧
      pyContains url "huggingface.co" = true ∧
      pyEndsWith (pyLower url) "safetensors" = true ∧
      (pySplit (pyReplace (pyReplace url "http://" "") "https://" "")
        "/").length < 3 ∧
      ∀ w : World, get_lora_from_url w url = ⟨.error .indexError, w.files, []⟩ :=
  ⟨"https://huggingface.co/file.safetensors", by decide, by decide, by decide,
    by decide, by decide, by decide, fun _ => rfl⟩

/-- C3: on the marketplace and generic arms, when a file already exists at
the computed cache path, the fetch returns that path with no network
request and an unchanged filesystem. -/
theorem cache_hit_no_network :
    (∀ (w : World) (url u : String) (c : List Nat),
      civitai_fix_url url = .ok u →
      pyContains u "SafeTensor" = true →
      w.files (joinPath (joinPath w.cacheDir "civitai")
        (get_filename_from_url u "safetensors")) = some c →
      civitai_branch w url =
        ⟨.ok (joinPath (joinPath w.cacheDir "civitai")
          (get_filename_from_url u "safetensors")), w.files, []⟩) ∧
    (∀ (w : World) (url : String) (c : List Nat),
      pyEndsWith (pyLower ((pySplit url "?").headD "")) "safetensors" = true →
      w.files (joinPath (joinPath w.cacheDir "general")
        (get_filename_from_url url "safetensors")) = some c →
      general_branch w url =
        ⟨.ok (joinPath (joinPath w.cacheDir "general")
          (get_filename_from_url url "safetensors")), w.files, []⟩) := by
  constructor
  · intro w url u c hfix hst hex
    unfold civitai_branch
    rw [hfix]
    simp only [civitai_branch_core, civitai_branch_rest, if_pos hst]
    rw [if_pos (by rw [hex]; rfl)]
  · intro w url c hok hex
    unfold general_branch
    rw [if_pos hok]
    rw [if_pos (by rw [hex]; rfl)]

/-- Witness for C3: with the cache file present, a civitai download URL is
returned directly from the cache. -/
theorem cache_hit_no_network_witness :
    civitai_branch
      ⟨fun _ => some [], none, fun _ => (200, []), "cache",
        fun _ _ _ _ => ""⟩
      "https://civitai.com/api/download/models/5?type=Model&format=SafeTensor" =
      ⟨.ok (joinPath (joinPath "cache" "civitai") (get_filename_from_url
        "https://civitai.com/api/download/models/5?type=Model&format=SafeTensor"
        "safetensors")), fun _ => some [], []⟩ :=
  cache_hit_no_network.1
    ⟨fun _ => some [], none, fun _ => (200, []), "cache", fun _ _ _ _ => ""⟩
    "https://civitai.com/api/download/models/5?type=Model&format=SafeTensor"
    "https://civitai.com/api/download/models/5?type=Model&format=SafeTensor"
    [] rfl (by decide) rfl

/-- C4: the cache path a successful marketplace or generic fetch returns
is a function of the URL and the cache root alone: any two worlds with the
same cache root (in particular, with and without the API-key environment
variable, or with different filesystems and networks) that both succeed
return the same path. -/
theorem cache_filename_pure :
    (∀ (w w' : World) (url p p' : String), w.cacheDir = w'.cacheDir →
      (civitai_branch w url).result = .ok p →
      (civitai_branch w' url).result = .ok p' → p = p') ∧
    (∀ (w w' : World) (url p p' : String), w.cacheDir = w'.cacheDir →
      (general_branch w url).result = .ok p →
      (general_branch w' url).result = .ok p' → p = p') := by
  constructor
  · intro w w' url p p' hc h h'
    obtain ⟨u, hu, hp⟩ := civitai_ok_path h
    obtain ⟨u', hu', hp'⟩ := civitai_ok_path h'
    rw [hu] at hu'
    cases hu'
    rw [hp, hp', hc]
  · intro w w' url p p' hc h h'
    rw [general_ok_path h, general_ok_path h', hc]

/-- Witness for C4: a keyed and an unkeyed world with the same cache root
agree on the returned cache path. -/
theorem cache_filename_pure_witness :
    joinPath (joinPath "cache" "civitai") (get_filename_from_url
      "https://civitai.com/api/download/models/5?type=Model&format=SafeTensor"
      "safetensors") =
    joinPath (joinPath "cache" "civitai") (get_filename_from_url
      "https://civitai.com/api/download/models/5?type=Model&format=SafeTensor"
      "safetensors") :=
  cache_filename_pure.1
    ⟨fun _ => some [], none, fun _ => (200, []), "cache", fun _ _ _ _ => ""⟩
    ⟨fun _ => some [], some "apikey", fun _ => (200, []), "cache",
      fun _ _ _ _ => ""⟩
    "https://civitai.com/api/download/models/5?type=Model&format=SafeTensor"
    _ _ rfl rfl rfl

/-- C6 counterexample: `httpx://example.com/file.safetensors` is nonempty
after trimming and does not begin with an HTTP(S) scheme, yet resolution
does not fail before provider dispatch — it reaches the generic arm and
(here, with a cache hit) succeeds, because the source only checks the
string prefix `http`. -/
theorem scheme_check_counterexample :
    (pyStrip "httpx://example.com/file.safetensors" ≠ "" ∧
     pyStartsWith (pyStrip "httpx://example.com/file.safetensors")
       "http://" = false ∧
     pyStartsWith (pyStrip "httpx://example.com/file.safetensors")
       "https://" = false) ∧
    isPreDispatchError (get_lora_from_url allCachedWorld
      "httpx://example.com/file.safetensors").result = false ∧
    isInvalidInputError (get_lora_from_url allCachedWorld
      "httpx://example.com/file.safetensors").result = false := by
  refine ⟨⟨by decide, by decide, by decide⟩, by decide, by decide⟩

/-- C6 amended: a URL that is empty after trimming fails with `ValueError
"URL is empty"`, and a nonempty one that does not begin with the string
`http` (which both `http://` and `https://` do) fails with `ValueError
"Invalid URL"`, in both cases before any provider strategy is selected
and with nothing else changed. -/
theorem scheme_check_amended (w : World) (url : String) :
    (pyStrip url = "" →
      get_lora_from_url w url =
        ⟨.error (.valueError "URL is empty"), w.files, []⟩) ∧
    (pyStrip url ≠ "" → pyStartsWith (pyStrip url) "http" = false →
      get_lora_from_url w url =
        ⟨.error (.valueError "Invalid URL"), w.files, []⟩) := by
  constructor
  · intro h
    unfold get_lora_from_url
    rw [if_pos h]
  · intro h1 h2
    unfold get_lora_from_url
    rw [if_neg h1, if_neg (by simp [h2])]

/-- Witness for the amended C6 at a whitespace URL and an `ftp://` URL. -/
theorem scheme_check_amended_witness :
    get_lora_from_url allCachedWorld "   " =
      ⟨.error (.valueError "URL is empty"), allCachedWorld.files, []⟩ ∧
    get_lora_from_url allCachedWorld "ftp://example.com/a.safetensors" =
      ⟨.error (.valueError "Invalid URL"), allCachedWorld.files, []⟩ :=
  ⟨(scheme_check_amended allCachedWorld "   ").1 (by decide),
   (scheme_check_amended allCachedWorld "ftp://example.com/a.safetensors").2
     (by decide) (by decide)⟩

/-- C5 counterexample: `https://civitai.com/file.ckpt?f=SafeTensor` is
dispatched to the marketplace arm and ends (query-stripped) in the
unsupported extension `ckpt`, yet resolution does not fail with
`InvalidInputError`, because that arm only checks for the substring
`SafeTensor` anywhere in the URL. -/
theorem ext_check_counterexample :
    (pyStrip "https://civitai.com/file.ckpt?f=SafeTensor" =
       "https://civitai.com/file.ckpt?f=SafeTensor" ∧
     pyStartsWith "https://civitai.com/file.ckpt?f=SafeTensor" "http" = true ∧
     pyContains "https://civitai.com/file.ckpt?f=SafeTensor"
       "huggingface.co" = false ∧
     pyContains "https://civitai.com/file.ckpt?f=SafeTensor"
       "civitai.com" = true ∧
     pyLower (urlExtensionSpec "https://civitai.com/file.ckpt?f=SafeTensor")
       = "ckpt") ∧
    isInvalidInputError (get_lora_from_url allCachedWorld
      "https://civitai.com/file.ckpt?f=SafeTensor").result = false := by
  refine ⟨⟨by decide, by decide, by decide, by decide, by decide⟩, by decide⟩

/-- C5 amended: on the generic arm, a URL whose query-stripped lowercased
form does not end with the string `safetensors` fails with `ValueError`;
on the marketplace arm, a URL that (after the version-id fix-up) does not
contain the substring `SafeTensor` fails with `ValueError`.  The checks
are these string tests, not filename-extension tests. -/
theorem ext_check_amended :
    (∀ (w : World) (url : String),
      pyStrip url ≠ "" →
      pyStartsWith (pyStrip url) "http" = true →
      pyContains (pyStrip url) "huggingface.co" = false →
      pyContains (pyStrip url) "civitai.com" = false →
      pyEndsWith (pyLower ((pySplit (pyStrip url) "?").headD ""))
        "safetensors" = false →
      get_lora_from_url w url =
        ⟨.error (.valueError
          "Only safetensors files are supported for security reasons."),
         w.files, []⟩) ∧
    (∀ (w : World) (url u : String),
      pyStrip url ≠ "" →
      pyStartsWith (pyStrip url) "http" = true →
      pyContains (pyStrip url) "huggingface.co" = false →
      pyContains (pyStrip url) "civitai.com" = true →
      civitai_fix_url (pyStrip url) = .ok u →
      pyContains u "SafeTensor" = false →
      get_lora_from_url w url =
        ⟨.error (.valueError
          "Only safetensors files are supported for security reasons."),
         w.files, []⟩) := by
  constructor
  · intro w url h1 h2 h3 h4 h5
    unfold get_lora_from_url
    rw [if_neg h1, if_pos h2, if_neg (by simp [h3]), if_neg (by simp [h4])]
    unfold general_branch
    rw [if_neg (by simp only [h5]; decide)]
  · intro w url u h1 h2 h3 h4 hfix h6
    unfold get_lora_from_url
    rw [if_neg h1, if_pos h2, if_neg (by simp [h3]), if_pos h4]
    unfold civitai_branch
    rw [hfix]
    simp only [civitai_branch_core, civitai_branch_rest, if_neg (by simp [h6] :
      ¬ pyContains u "SafeTensor" = true)]

/-- Witness for the amended C5: a generic `.ckpt` URL and a civitai URL
without the `SafeTensor` marker are both rejected. -/
theorem ext_check_amended_witness :
    get_lora_from_url allCachedWorld "https://example.com/file.ckpt" =
      ⟨.error (.valueError
        "Only safetensors files are supported for security reasons."),
       allCachedWorld.files, []⟩ ∧
    get_lora_from_url allCachedWorld "https://civitai.com/file.ckpt" =
      ⟨.error (.valueError
        "Only safetensors files are supported for security reasons."),
       allCachedWorld.files, []⟩ :=
  ⟨ext_check_amended.1 allCachedWorld "https://example.com/file.ckpt"
      (by decide) (by decide) (by decide) (by decide) (by decide),
   ext_check_amended.2 allCachedWorld "https://civitai.com/file.ckpt"
      "https://civitai.com/file.ckpt"
      (by decide) (by decide) (by decide) (by decide) rfl (by decide)⟩

/-- C8 counterexample: in
`https://civitai.com/models/111?xmodelVersionId=5000` the parameter name
`modelVersionId` appears only as a substring of the different parameter
name `xmodelVersionId`, yet the rewrite still triggers and extracts
`5000`, because the source tests substring containment. -/
theorem exact_param_counterexample :
    (pyContains "https://civitai.com/models/111?xmodelVersionId=5000"
       "modelVersionId" = true ∧
     queryParamNamesSpec "https://civitai.com/models/111?xmodelVersionId=5000"
       = ["xmodelVersionId"] ∧
     (queryParamNamesSpec
       "https://civitai.com/models/111?xmodelVersionId=5000").contains
       "modelVersionId" = false) ∧
    civitai_fix_url "https://civitai.com/models/111?xmodelVersionId=5000" ≠
      .ok "https://civitai.com/models/111?xmodelVersionId=5000" ∧
    civitai_fix_url "https://civitai.com/models/111?xmodelVersionId=5000" =
      .ok "https://civitai.com/api/download/models/5000?type=Model&format=SafeTensor"
    := by
  refine ⟨⟨by decide, by decide, by decide⟩, by decide, by decide⟩

/-- C8 amended: the version-id rewrite triggers exactly on substring
containment of `modelVersionId`, not on an exact parameter-name match: a
URL without the substring is left unchanged, and a URL containing it only
inside a different parameter name is still rewritten. -/
theorem substring_trigger_amended :
    (∀ url : String, pyContains url "modelVersionId" = false →
      civitai_fix_url url = .ok url) ∧
    civitai_fix_url "https://civitai.com/models/111?xmodelVersionId=5000" =
      .ok "https://civitai.com/api/download/models/5000?type=Model&format=SafeTensor"
    := by
  constructor
  · intro url h
    unfold civitai_fix_url
    rw [if_neg (by simp [h])]
  · decide

/-- Witness for the amended C8: a URL without the substring is returned
unchanged. -/
theorem substring_trigger_amended_witness :
    civitai_fix_url "https://civitai.com/models/111" =
      .ok "https://civitai.com/models/111" :=
  substring_trigger_amended.1 "https://civitai.com/models/111" (by decide)

/-- C2 counterexample: the URL
`https://civitai.com/models/111?xmodelVersionId=7&modelVersionId=5000`
carries the exact query parameter `modelVersionId=5000`, yet the rewrite
does not produce the canonical URL for `5000`: the extraction keys on the
first occurrence of the substring `modelVersionId=`, which here lies
inside the other parameter `xmodelVersionId=7`, so the result depends on
that other query parameter. -/
theorem version_id_rewrite_counterexample :
    (pyContains
       "https://civitai.com/models/111?xmodelVersionId=7&modelVersionId=5000"
       "civitai.com" = true ∧
     hasQueryParamSpec
       "https://civitai.com/models/111?xmodelVersionId=7&modelVersionId=5000"
       "modelVersionId" "5000" = true) ∧
    civitai_fix_url
      "https://civitai.com/models/111?xmodelVersionId=7&modelVersionId=5000" ≠
      .ok "https://civitai.com/api/download/models/5000?type=Model&format=SafeTensor"
    ∧
    civitai_fix_url
      "https://civitai.com/models/111?xmodelVersionId=7&modelVersionId=5000" =
      .ok "https://civitai.com/api/download/models/7?type=Model&format=SafeTensor"
    := by
  refine ⟨⟨by decide, by decide⟩, by decide, by decide⟩

/-! ### Lemmas about `splitFirst` and `pySplitL`

These support the amended form of the version-id-rewrite claim, which
quantifies over all URLs of the shape
`a ++ "modelVersionId=" ++ id ++ r`. -/

/-- `isPrefixOf` agrees with the existence of a completing suffix. -/
theorem isPrefixOf_true_iff (l m : List Char) :
    l.isPrefixOf m = true ↔ ∃ t, l ++ t = m := by
  induction l generalizing m with
  | nil => simp [List.isPrefixOf]
  | cons a l ih =>
    cases m with
    | nil => simp [List.isPrefixOf]
    | cons b m =>
      simp [List.isPrefixOf, ih, List.cons.injEq]

/-- `splitFirst` finds something exactly when an occurrence exists. -/
theorem splitFirst_isSome_iff {sep : List Char} (hsep : sep ≠ [])
    (s : List Char) :
    (splitFirst sep s).isSome = true ↔ ∃ u v, u ++ sep ++ v = s := by
  induction s with
  | nil =>
    simp only [splitFirst, Option.isSome_none]
    constructor
    · intro h; cases h
    · rintro ⟨u, v, huv⟩
      rcases List.append_eq_nil.mp huv with ⟨h1, -⟩
      rcases List.append_eq_nil.mp h1 with ⟨-, h2⟩
      exact absurd h2 hsep
  | cons c l ih =>
    by_cases hp : sep.isPrefixOf (c :: l) = true
    · simp only [splitFirst, if_pos hp, Option.isSome_some, true_iff]
      obtain ⟨t, ht⟩ := (isPrefixOf_true_iff sep (c :: l)).mp hp
      exact ⟨[], t, by simpa using ht⟩
    · simp only [splitFirst, if_neg hp, Option.isSome_map']
      rw [ih]
      constructor
      · rintro ⟨u, v, huv⟩
        exact ⟨c :: u, v, by simpa using huv⟩
      · rintro ⟨u, v, huv⟩
        cases u with
        | nil =>
          exfalso
          apply hp
          exact (isPrefixOf_true_iff sep (c :: l)).mpr
            ⟨v, by simpa using huv⟩
        | cons c' u' =>
          exact ⟨u', v, by simpa using congrArg List.tail huv⟩

/-- Splitting an equal pair of concatenations at the shorter left part. -/
theorem take_shape {a b c d : List Char} (h : a ++ b = c ++ d)
    (hl : a.length ≤ c.length) : ∃ m, c = a ++ m ∧ b = m ++ d := by
  rcases List.append_eq_append_iff.mp h with ⟨a', h1, h2⟩ | ⟨c', h1, h2⟩
  · exact ⟨a', h1, h2⟩
  · have hlen : c'.length = 0 := by
      have := congrArg List.length h1
      simp [List.length_append] at this
      omega
    have hc' : c' = [] := List.eq_nil_of_length_eq_zero hlen
    subst hc'
    simp only [List.append_nil] at h1
    simp only [List.nil_append] at h2
    exact ⟨[], by simp [h1], by simp [h2]⟩

/-- A nonempty list is its front part followed by its last element. -/
theorem ends_shape : ∀ (l : List Char), l ≠ [] → ∃ l' c, l = l' ++ [c]
  | [], h => absurd rfl h
  | [c], _ => ⟨[], c, rfl⟩
  | c :: c' :: l, _ => by
    obtain ⟨l', d, hd⟩ := ends_shape (c' :: l) (by simp)
    exact ⟨c :: l', d, by rw [hd]; rfl⟩

/-- When `sep` occurs nowhere in `x`, no occurrence of `sep` inside
`x ++ y` can fit entirely within a suffix of `x`. -/
theorem no_fit {sep x x2 y t : List Char} (hsep : sep ≠ [])
    (hx : splitFirst sep x = none) {p : List Char} (hp : p ++ x2 = x)
    (ht : sep ++ t = x2 ++ y) (hlen : sep.length ≤ x2.length) : False := by
  obtain ⟨m, hm, -⟩ := take_shape ht hlen
  have : (splitFirst sep x).isSome = true :=
    (splitFirst_isSome_iff hsep x).mpr
      ⟨p, m, by rw [← hp, hm]; simp [List.append_assoc]⟩
  rw [hx] at this
  cases this

/-- Straddle exclusion via the last character of `x`: when `sep` occurs
nowhere in `x` and `x` ends in a character not in `sep`, `sep` is a
prefix of no `x2 ++ y` with `x2` a nonempty suffix of `x`. -/
theorem noStraddle_of_last {sep x : List Char} (hsep : sep ≠ [])
    (hx : splitFirst sep x = none) {c : Char} (hc : c ∉ sep)
    (hlast : ∃ x', x = x' ++ [c]) :
    ∀ x2 y, x2 ≠ [] → (∃ p, p ++ x2 = x) →
      sep.isPrefixOf (x2 ++ y) = false := by
  rintro x2 y hne ⟨p, hp⟩
  by_contra hb
  have hb' : sep.isPrefixOf (x2 ++ y) = true := by
    cases hv : sep.isPrefixOf (x2 ++ y) with
    | false => exact absurd hv hb
    | true => rfl
  obtain ⟨t, ht⟩ := (isPrefixOf_true_iff _ _).mp hb'
  rcases Nat.lt_or_ge x2.length sep.length with hlen | hlen
  · obtain ⟨x', hx'⟩ := hlast
    obtain ⟨x2', hx2'⟩ : ∃ x2', x2 = x2' ++ [c] := by
      obtain ⟨l', d, hd⟩ := ends_shape x2 hne
      refine ⟨l', ?_⟩
      rw [hd] at hp
      rw [hx'] at hp
      rw [← List.append_assoc] at hp
      obtain ⟨-, h2⟩ := List.append_inj' hp (by simp)
      have hdc : d = c := by injection h2
      rw [hd, hdc]
    obtain ⟨m, hm, -⟩ := take_shape ht.symm (Nat.le_of_lt hlen)
    apply hc
    rw [hm, hx2']
    simp
  · exact no_fit hsep hx hp ht hlen

/-- Straddle exclusion via the head of `y`: when `sep` occurs nowhere in
`x` and `y` is empty or starts with a character not in `sep`, `sep` is a
prefix of no `x2 ++ y` with `x2` a nonempty suffix of `x`. -/
theorem noStraddle_of_head {sep x y : List Char} (hsep : sep ≠ [])
    (hx : splitFirst sep x = none)
    (hy : y = [] ∨ ∃ c t, y = c :: t ∧ c ∉ sep) :
    ∀ x2, x2 ≠ [] → (∃ p, p ++ x2 = x) →
      sep.isPrefixOf (x2 ++ y) = false := by
  rintro x2 hne ⟨p, hp⟩
  by_contra hb
  have hb' : sep.isPrefixOf (x2 ++ y) = true := by
    cases hv : sep.isPrefixOf (x2 ++ y) with
    | false => exact absurd hv hb
    | true => rfl
  obtain ⟨t, ht⟩ := (isPrefixOf_true_iff _ _).mp hb'
  rcases Nat.lt_or_ge x2.length sep.length with hlen | hlen
  · obtain ⟨m, hm, hy'⟩ := take_shape ht.symm (Nat.le_of_lt hlen)
    have hmne : m ≠ [] := by
      intro hnil
      rw [hnil, List.append_nil] at hm
      rw [hm] at hlen
      exact Nat.lt_irrefl _ hlen
    rcases hy with rfl | ⟨c, t', hc, hcn⟩
    · rcases List.append_eq_nil.mp hy'.symm with ⟨hm0, -⟩
      exact hmne hm0
    · cases m with
      | nil => exact hmne rfl
      | cons m0 m' =>
        apply hcn
        have hm0c : m0 = c := by
          rw [hc] at hy'
          injection hy' with h1 h2
          exact h1.symm
        rw [← hm0c, hm]
        simp
  · exact no_fit hsep hx hp ht hlen

/-- Straddle exclusion for a one-character separator: only the fitting
case can arise. -/
theorem noStraddle_single {c0 : Char} {x : List Char}
    (hx : splitFirst [c0] x = none) :
    ∀ x2 y, x2 ≠ [] → (∃ p, p ++ x2 = x) →
      List.isPrefixOf [c0] (x2 ++ y) = false := by
  rintro x2 y hne ⟨p, hp⟩
  by_contra hb
  have hb' : List.isPrefixOf [c0] (x2 ++ y) = true := by
    cases hv : List.isPrefixOf [c0] (x2 ++ y) with
    | false => exact absurd hv hb
    | true => rfl
  obtain ⟨t, ht⟩ := (isPrefixOf_true_iff _ _).mp hb'
  refine no_fit (by simp) hx hp ht ?_
  have := List.length_pos.mpr hne
  simpa using this

/-- Prepending occurrence-free material shifts `splitFirst` by that
material, provided no occurrence straddles the boundary. -/
theorem splitFirst_append_map {sep : List Char} (x y : List Char)
    (hstr : ∀ x2, x2 ≠ [] → (∃ p, p ++ x2 = x) →
      sep.isPrefixOf (x2 ++ y) = false) :
    splitFirst sep (x ++ y) =
      (splitFirst sep y).map (fun pq => (x ++ pq.1, pq.2)) := by
  induction x with
  | nil =>
    simp only [List.nil_append]
    cases splitFirst sep y with
    | none => rfl
    | some pq => simp
  | cons c x' ih =>
    have hc : sep.isPrefixOf (c :: (x' ++ y)) = false := by
      have := hstr (c :: x') (by simp) ⟨[], rfl⟩
      simpa using this
    show splitFirst sep (c :: (x' ++ y)) = _
    rw [splitFirst, if_neg (by simp [hc])]
    rw [ih (fun x2 hne hex => hstr x2 hne
      (match hex with | ⟨p, hp⟩ => ⟨c :: p, by rw [← hp]; rfl⟩))]
    cases splitFirst sep y with
    | none => rfl
    | some pq => simp

/-- `splitFirst` at an occurrence sitting at the very front. -/
theorem splitFirst_cons_self {sep : List Char} (hsep : sep ≠ [])
    (b : List Char) : splitFirst sep (sep ++ b) = some ([], b) := by
  cases sep with
  | nil => exact absurd rfl hsep
  | cons c ss =>
    show splitFirst (c :: ss) (c :: (ss ++ b)) = _
    have hp : (c :: ss).isPrefixOf (c :: (ss ++ b)) = true :=
      (isPrefixOf_true_iff _ _).mpr ⟨b, rfl⟩
    rw [splitFirst, if_pos hp]
    congr 1
    show (([] : List Char), (ss ++ b).drop ss.length) = ([], b)
    rw [List.drop_left]

/-- The remainder returned by `splitFirst` is strictly shorter than the
input. -/
theorem splitFirst_shrink {sep : List Char} (hsep : sep ≠ []) :
    ∀ {s : List Char} {pq : List Char × List Char},
      splitFirst sep s = some pq → pq.2.length < s.length := by
  intro s
  induction s with
  | nil => intro pq h; cases h
  | cons c l ih =>
    intro pq h
    by_cases hp : sep.isPrefixOf (c :: l) = true
    · rw [splitFirst, if_pos hp] at h
      cases h
      have h1 : 1 ≤ sep.length := List.length_pos.mpr hsep
      simp [List.length_drop]
      omega
    · rw [splitFirst, if_neg hp] at h
      cases hsf : splitFirst sep l with
      | none => rw [hsf] at h; cases h
      | some pq' =>
        rw [hsf] at h
        simp only [Option.map_some'] at h
        cases h
        have := ih hsf
        simp only [List.length_cons]
        omega

/-- `pySplitAuxL` on the empty list, with any fuel. -/
theorem pySplitAuxL_nil (sep : List Char) (f : Nat) :
    pySplitAuxL sep f [] = [[]] := by
  cases f with
  | zero => rfl
  | succ k => rfl

/-- `pySplitAuxL` does not depend on the fuel once the fuel covers the
input length. -/
theorem pySplitAuxL_fuel {sep : List Char} (hsep : sep ≠ []) :
    ∀ (n f1 f2 : Nat) (s : List Char), s.length ≤ n → s.length ≤ f1 →
      s.length ≤ f2 → pySplitAuxL sep f1 s = pySplitAuxL sep f2 s := by
  intro n
  induction n with
  | zero =>
    intro f1 f2 s h _ _
    have hs : s = [] := List.eq_nil_of_length_eq_zero (Nat.le_zero.mp h)
    subst hs
    rw [pySplitAuxL_nil, pySplitAuxL_nil]
  | succ n ih =>
    intro f1 f2 s h h1 h2
    cases s with
    | nil => rw [pySplitAuxL_nil, pySplitAuxL_nil]
    | cons c l =>
      cases f1 with
      | zero => simp at h1
      | succ a =>
        cases f2 with
        | zero => simp at h2
        | succ b =>
          simp only [pySplitAuxL]
          cases hsf : splitFirst sep (c :: l) with
          | none => rfl
          | some pq =>
            have hlt := splitFirst_shrink hsep hsf
            simp only [List.length_cons] at h h1 h2 hlt
            show pq.1 :: pySplitAuxL sep a pq.2 =
              pq.1 :: pySplitAuxL sep b pq.2
            rw [ih a b pq.2 (by omega) (by omega) (by omega)]

/-- Unfolding `pySplitL` at a found first occurrence. -/
theorem pySplitL_cons {sep : List Char} (hsep : sep ≠ [])
    {s a b : List Char} (h : splitFirst sep s = some (a, b)) :
    pySplitL sep s = a :: pySplitL sep b := by
  cases s with
  | nil => cases h
  | cons c l =>
    have hlt : b.length < l.length + 1 := by
      simpa using splitFirst_shrink hsep h
    unfold pySplitL
    show pySplitAuxL sep (l.length + 1) (c :: l) =
      a :: pySplitAuxL sep b.length b
    simp only [pySplitAuxL]
    rw [h]
    show a :: pySplitAuxL sep l.length b = a :: pySplitAuxL sep b.length b
    rw [pySplitAuxL_fuel hsep l.length l.length b.length b
      (by omega) (by omega) (by omega)]

/-- `pySplitL` on an occurrence-free input. -/
theorem pySplitL_of_none {sep s : List Char}
    (h : splitFirst sep s = none) : pySplitL sep s = [s] := by
  cases s with
  | nil => rfl
  | cons c l =>
    unfold pySplitL
    show pySplitAuxL sep (l.length + 1) (c :: l) = _
    simp only [pySplitAuxL]
    rw [h]

/-- A false Python containment test means `splitFirst` finds nothing. -/
theorem splitFirst_none_of_pyContains {s sub : String}
    (h : pyContains s sub = false) :
    splitFirst sub.data s.data = none := by
  unfold pyContains at h
  cases ho : splitFirst sub.data s.data with
  | none => rfl
  | some pq =>
    rw [ho] at h
    simp at h

/-- A string ending in the one-character string `c` has `c` as the last
character of its data. -/
theorem ends_char_of_pyEndsWith {a : String} {c : Char}
    (h : pyEndsWith a (String.mk [c]) = true) :
    ∃ x', a.data = x' ++ [c] := by
  unfold pyEndsWith at h
  simp only [List.isSuffixOf] at h
  obtain ⟨t, ht⟩ := (isPrefixOf_true_iff _ _).mp h
  refine ⟨t.reverse, ?_⟩
  have hr := congrArg List.reverse ht
  have hd : (String.mk [c]).data = [c] := rfl
  simp [hd] at hr
  rw [← hr]

/-- A string starting with the one-character string `c` has `c` as the
first character of its data. -/
theorem starts_char_of_pyStartsWith {r : String} {c : Char}
    (h : pyStartsWith r (String.mk [c]) = true) :
    ∃ t, r.data = c :: t := by
  unfold pyStartsWith at h
  obtain ⟨t, ht⟩ := (isPrefixOf_true_iff _ _).mp h
  exact ⟨t, by rw [← ht]; rfl⟩

/-- Evaluating the civitai fix-up once its trigger and split are known. -/
theorem civitai_fix_url_eval {url after : String}
    (htrig : pyContains url "modelVersionId" = true)
    (hget : (pySplit url "modelVersionId=").get? 1 = some after) :
    civitai_fix_url url =
      .ok ("https://civitai.com/api/download/models/" ++
        (pySplit after "&").headD "" ++ "?type=Model&format=SafeTensor") := by
  unfold civitai_fix_url
  rw [if_pos htrig, hget]

/-- C2 amended: the version-id rewrite keys on the first occurrence of
the substring `modelVersionId=`.  For every URL of the shape
`a ++ "modelVersionId=" ++ id ++ r` in which the shown occurrence is the
first one (no `modelVersionId=` in `a`, `a` ending in the `?` or `&` that
precedes the parameter, none in `id`), the value taken is the text up to
the next `&` — so with `id` free of `&` and `r` empty or starting with
`&`, the rewrite yields the canonical URL for `id`, independent of all
other query parameters in `a` and `r`.  In particular the example URL
rewrites to the canonical URL for `5000`. -/
theorem version_id_rewrite_amended :
    (∀ (a id r : String),
      pyContains a "modelVersionId=" = false →
      (pyEndsWith a "?" = true ∨ pyEndsWith a "&" = true) →
      pyContains id "modelVersionId=" = false →
      pyContains id "&" = false →
      (r = "" ∨ pyStartsWith r "&" = true) →
      civitai_fix_url (a ++ "modelVersionId=" ++ id ++ r) =
        .ok ("https://civitai.com/api/download/models/" ++ id ++
          "?type=Model&format=SafeTensor")) ∧
    civitai_fix_url "https://civitai.com/models/111?modelVersionId=5000" =
      .ok "https://civitai.com/api/download/models/5000?type=Model&format=SafeTensor"
    := by
  constructor
  · intro a id r h1 h2 h3 h4 h5
    have hsep : ("modelVersionId=".data : List Char) ≠ [] := by decide
    have hu : (a ++ "modelVersionId=" ++ id ++ r).data =
        a.data ++ ("modelVersionId=".data ++ (id.data ++ r.data)) := by
      simp [List.append_assoc]
    have hna : splitFirst "modelVersionId=".data a.data = none :=
      splitFirst_none_of_pyContains h1
    have hstr : ∀ x2, x2 ≠ [] → (∃ p, p ++ x2 = a.data) →
        "modelVersionId=".data.isPrefixOf
          (x2 ++ ("modelVersionId=".data ++ (id.data ++ r.data))) = false := by
      rcases h2 with h2 | h2
      · obtain ⟨x', hx'⟩ := ends_char_of_pyEndsWith
          (show pyEndsWith a (String.mk ['?']) = true from h2)
        exact fun x2 hne hex =>
          noStraddle_of_last hsep hna (by decide) ⟨x', hx'⟩ x2 _ hne hex
      · obtain ⟨x', hx'⟩ := ends_char_of_pyEndsWith
          (show pyEndsWith a (String.mk ['&']) = true from h2)
        exact fun x2 hne hex =>
          noStraddle_of_last hsep hna (by decide) ⟨x', hx'⟩ x2 _ hne hex
    have hsf : splitFirst "modelVersionId=".data
        (a ++ "modelVersionId=" ++ id ++ r).data =
        some (a.data, id.data ++ r.data) := by
      rw [hu, splitFirst_append_map a.data _ hstr,
        splitFirst_cons_self hsep]
      simp
    have hsplit : pySplitL "modelVersionId=".data
        (a ++ "modelVersionId=" ++ id ++ r).data =
        a.data :: pySplitL "modelVersionId=".data (id.data ++ r.data) :=
      pySplitL_cons hsep hsf
    have htrig : pyContains (a ++ "modelVersionId=" ++ id ++ r)
        "modelVersionId" = true := by
      unfold pyContains
      rw [Bool.or_eq_true]
      right
      refine (splitFirst_isSome_iff (by decide) _).mpr
        ⟨a.data, '=' :: (id.data ++ r.data), ?_⟩
      rw [hu]
      have hdec : ("modelVersionId=".data : List Char) =
          "modelVersionId".data ++ ['='] := rfl
      rw [hdec]
      simp [List.append_assoc]
    have hn4 : splitFirst ['&'] id.data = none :=
      splitFirst_none_of_pyContains h4
    have key : ∀ z : List Char,
        (pySplit (String.mk (id.data ++ '&' :: z)) "&").headD "" = id := by
      intro z
      have hsome : splitFirst ['&'] (id.data ++ '&' :: z) =
          some (id.data, z) := by
        rw [splitFirst_append_map id.data ('&' :: z)
          (fun x2 hne hex => noStraddle_single hn4 x2 ('&' :: z) hne hex)]
        rw [show ('&' :: z : List Char) = ['&'] ++ z from rfl,
          splitFirst_cons_self (by decide) z]
        simp
      show ((pySplitL ['&'] (id.data ++ '&' :: z)).map String.mk).headD ""
        = id
      rw [pySplitL_cons (by decide) hsome]
      rfl
    rcases h5 with rfl | h5
    · have hid0 : id.data ++ ("" : String).data = id.data := by simp
      rw [hid0] at hsplit
      have hn3 : splitFirst "modelVersionId=".data id.data = none :=
        splitFirst_none_of_pyContains h3
      have hget : (pySplit (a ++ "modelVersionId=" ++ id ++ "")
          "modelVersionId=").get? 1 = some (String.mk id.data) := by
        show ((pySplitL "modelVersionId=".data
          (a ++ "modelVersionId=" ++ id ++ "").data).map String.mk).get? 1
          = some (String.mk id.data)
        rw [hsplit, pySplitL_of_none hn3]
        rfl
      rw [civitai_fix_url_eval htrig hget]
      have hkey0 : (pySplit (String.mk id.data) "&").headD "" = id := by
        show ((pySplitL ['&'] id.data).map String.mk).headD "" = id
        rw [pySplitL_of_none hn4]
        rfl
      rw [hkey0]
    · obtain ⟨t, ht⟩ := starts_char_of_pyStartsWith
        (show pyStartsWith r (String.mk ['&']) = true from h5)
      rw [ht] at hsplit
      have hn3 : splitFirst "modelVersionId=".data id.data = none :=
        splitFirst_none_of_pyContains h3
      have hy : ('&' :: t : List Char) = [] ∨
          ∃ c t', ('&' :: t : List Char) = c :: t' ∧
            c ∉ "modelVersionId=".data :=
        Or.inr ⟨'&', t, rfl, by decide⟩
      have hmap : splitFirst "modelVersionId=".data (id.data ++ '&' :: t) =
          (splitFirst "modelVersionId=".data ('&' :: t)).map
            (fun pq => (id.data ++ pq.1, pq.2)) :=
        splitFirst_append_map id.data ('&' :: t)
          (noStraddle_of_head hsep hn3 hy)
      have hfirst : "modelVersionId=".data.isPrefixOf ('&' :: t) = false := by
        cases hv : "modelVersionId=".data.isPrefixOf ('&' :: t) with
        | false => rfl
        | true =>
          obtain ⟨t', ht'⟩ := (isPrefixOf_true_iff _ _).mp hv
          have hm : ("modelVersionId=".data : List Char) =
              'm' :: "odelVersionId=".data := rfl
          rw [hm] at ht'
          injection ht' with hmc _
          exact absurd hmc (by decide)
      have hsft : splitFirst "modelVersionId=".data ('&' :: t) =
          (splitFirst "modelVersionId=".data t).map
            (fun pq => ('&' :: pq.1, pq.2)) := by
        rw [splitFirst, if_neg (by simp [hfirst])]
      cases hsft2 : splitFirst "modelVersionId=".data t with
      | none =>
        have hnone : splitFirst "modelVersionId=".data
            (id.data ++ '&' :: t) = none := by
          rw [hmap, hsft, hsft2]
          rfl
        have hget : (pySplit (a ++ "modelVersionId=" ++ id ++ r)
            "modelVersionId=").get? 1 =
            some (String.mk (id.data ++ '&' :: t)) := by
          show ((pySplitL "modelVersionId=".data
            (a ++ "modelVersionId=" ++ id ++ r).data).map String.mk).get? 1
            = some (String.mk (id.data ++ '&' :: t))
          rw [hsplit, pySplitL_of_none hnone]
          rfl
        rw [civitai_fix_url_eval htrig hget, key t]
      | some pq =>
        have hval : splitFirst "modelVersionId=".data
            (id.data ++ '&' :: t) =
            some (id.data ++ '&' :: pq.1, pq.2) := by
          rw [hmap, hsft, hsft2]
          rfl
        have hget : (pySplit (a ++ "modelVersionId=" ++ id ++ r)
            "modelVersionId=").get? 1 =
            some (String.mk (id.data ++ '&' :: pq.1)) := by
          show ((pySplitL "modelVersionId=".data
            (a ++ "modelVersionId=" ++ id ++ r).data).map String.mk).get? 1
            = some (String.mk (id.data ++ '&' :: pq.1))
          rw [hsplit, pySplitL_cons hsep hval]
          rfl
        rw [civitai_fix_url_eval htrig hget, key pq.1]
  · decide

/-- Witness for the amended C2: a URL with a trailing extra query
parameter still rewrites to the canonical URL for the version id. -/
theorem version_id_rewrite_amended_witness :
    civitai_fix_url ("https://civitai.com/models/111?" ++ "modelVersionId="
      ++ "5000" ++ "&other=1") =
      .ok ("https://civitai.com/api/download/models/" ++ "5000" ++
        "?type=Model&format=SafeTensor") :=
  version_id_rewrite_amended.1 "https://civitai.com/models/111?" "5000"
    "&other=1" (by decide) (Or.inl (by decide)) (by decide) (by decide)
    (Or.inr (by decide))

end Nodes


